import Mathlib

set_option maxRecDepth 10000

/-!
Shallow embedding of the application-worker `Application` class
(`lib/application.js` of the egg framework): a heap of JavaScript-like
objects with prototype chains, the context factory `createContext`, the
anonymous-context builder, the secret-key accessor, the lifecycle event
binder, the config diagnostics and the `locals` bag.

JavaScript objects are modelled as association lists of own properties
plus an optional prototype pointer into a heap (a list of objects).
Property assignment writes an own property; property reads walk the
prototype chain.
-/

namespace Egg

/-- Runtime values: references to heap objects, strings, numbers,
functions bound to a receiver object (`f.bind(obj)`), and `undefined`. -/
inductive Value where
  | ref (id : Nat)
  | str (s : String)
  | num (n : Int)
  | bound (id : Nat)
  | undef
deriving DecidableEq, Repr

/-- A JavaScript-like object: an optional prototype (pointer into the
heap) and an ordered list of own properties. -/
structure Obj where
  proto : Option Nat
  fields : List (String × Value)
deriving DecidableEq, Repr

/-- A heap of objects; object ids are list indices. -/
abbrev Heap := List Obj

/-- Look a key up in an own-property list. -/
def lookupKey {α : Type} : List (String × α) → String → Option α
  | [], _ => none
  | (k, v) :: rest, q => if k = q then some v else lookupKey rest q

/-- Set a key in an own-property list: overwrite in place if present,
append otherwise (JavaScript own-property assignment order). -/
def setKey {α : Type} : List (String × α) → String → α → List (String × α)
  | [], q, v => [(q, v)]
  | (k, w) :: rest, q, v =>
    if k = q then (k, v) :: rest else (k, w) :: setKey rest q v

/-- Allocate a fresh object with prototype `p` and no own properties
(`Object.create(p)`); returns the new heap and the new object id. -/
def alloc (h : Heap) (p : Option Nat) : Heap × Nat :=
  (h ++ [{ proto := p, fields := [] }], h.length)

/-- Assign an own property on the object at id `i` (`h[i][k] = v`); a
dangling id leaves the heap unchanged. -/
def setField : Heap → Nat → String → Value → Heap
  | [], _, _, _ => []
  | ⟨p, fs⟩ :: rest, 0, k, v => ⟨p, setKey fs k v⟩ :: rest
  | o :: rest, i + 1, k, v => o :: setField rest i k v

/-- Read an own property of the object at id `i`, ignoring the prototype
chain (used for raw request handles, whose data lives in own slots). -/
def ownRead (h : Heap) (i : Nat) (k : String) : Option Value :=
  match h[i]? with
  | some o => lookupKey o.fields k
  | none => none

/-- Fuelled prototype-chain property read: own properties first, else
the prototype's, recursively. -/
def getField : Nat → Heap → Nat → String → Option Value
  | 0, _, _, _ => none
  | fuel + 1, h, i, k =>
    match h[i]? with
    | none => none
    | some o =>
      match lookupKey o.fields k with
      | some v => some v
      | none =>
        match o.proto with
        | some p => getField fuel h p k
        | none => none

/-- Property read with enough fuel for any prototype chain in a
well-formed heap (prototypes are allocated before their derived
objects, so chains have length at most `h.length`). -/
def readField (h : Heap) (i : Nat) (k : String) : Option Value :=
  getField h.length h i k

/-- The application-level shared objects: the application itself and the
three prototypes (`app.context`, `app.request`, `app.response`)
populated once by the loader. -/
structure AppRefs where
  appId : Nat
  contextProto : Nat
  requestProto : Nat
  responseProto : Nat
deriving DecidableEq, Repr

/-- Embedding of `Application#createContext(req, res)`: derives the
three facets from the shared prototypes by `Object.create`, wires the
back-references, binds `onerror` to the context, records
`originalUrl = req.url` on context and request, and stamps
`starttime`.  Assignment chains such as
`context.app = request.app = response.app = app` evaluate their
innermost (rightmost) assignment first. -/
def createContext (h : Heap) (app : AppRefs) (reqId resId : Nat) (now : Int) :
    Heap × Nat :=
  let (h, contextId) := alloc h (some app.contextProto)
  let (h, requestId) := alloc h (some app.requestProto)
  let (h, responseId) := alloc h (some app.responseProto)
  let h := setField h contextId "request" (.ref requestId)
  let h := setField h contextId "response" (.ref responseId)
  let h := setField h responseId "app" (.ref app.appId)
  let h := setField h requestId "app" (.ref app.appId)
  let h := setField h contextId "app" (.ref app.appId)
  let h := setField h responseId "req" (.ref reqId)
  let h := setField h requestId "req" (.ref reqId)
  let h := setField h contextId "req" (.ref reqId)
  let h := setField h responseId "res" (.ref resId)
  let h := setField h requestId "res" (.ref resId)
  let h := setField h contextId "res" (.ref resId)
  let h := setField h responseId "ctx" (.ref contextId)
  let h := setField h requestId "ctx" (.ref contextId)
  let h := setField h requestId "response" (.ref responseId)
  let h := setField h responseId "request" (.ref requestId)
  let h := setField h contextId "onerror" (.bound contextId)
  let url := (ownRead h reqId "url").getD .undef
  let h := setField h requestId "originalUrl" url
  let h := setField h contextId "originalUrl" url
  let h := setField h contextId "starttime" (.num now)
  (h, contextId)

/-- The context facet produced by `createContext` when the new objects
start at heap index `base`. -/
def newContextObj (app : AppRefs) (base reqId resId : Nat) (url : Value)
    (now : Int) : Obj :=
  { proto := some app.contextProto,
    fields := [("request", .ref (base + 1)), ("response", .ref (base + 2)),
               ("app", .ref app.appId), ("req", .ref reqId), ("res", .ref resId),
               ("onerror", .bound base), ("originalUrl", url),
               ("starttime", .num now)] }

/-- The request facet produced by `createContext`. -/
def newRequestObj (app : AppRefs) (base reqId resId : Nat) (url : Value) : Obj :=
  { proto := some app.requestProto,
    fields := [("app", .ref app.appId), ("req", .ref reqId), ("res", .ref resId),
               ("ctx", .ref base), ("response", .ref (base + 2)),
               ("originalUrl", url)] }

/-- The response facet produced by `createContext`. -/
def newResponseObj (app : AppRefs) (base reqId resId : Nat) : Obj :=
  { proto := some app.responseProto,
    fields := [("app", .ref app.appId), ("req", .ref reqId), ("res", .ref resId),
               ("ctx", .ref base), ("request", .ref (base + 1))] }

/-- Concrete demonstration heap: the application object (id 0), the
three shared prototypes (ids 1-3), a raw request with a url (id 4) and
a raw response (id 5). -/
def demoHeap : Heap :=
  [⟨none, []⟩, ⟨none, [("sharedDefault", .str "shared")]⟩, ⟨none, []⟩,
   ⟨none, []⟩, ⟨none, [("url", .str "/home")]⟩, ⟨none, []⟩]

/-- Application references into `demoHeap`. -/
def demoApp : AppRefs := ⟨0, 1, 2, 3⟩

/-- First demonstration context (heap and id) built over `demoHeap`. -/
def demoCtxA : Heap × Nat := createContext demoHeap demoApp 4 5 1

/-- Second demonstration context, created after the first. -/
def demoCtxB : Heap × Nat := createContext demoCtxA.1 demoApp 4 5 2

/-- The three facets of a context. -/
inductive Facet where
  | context
  | request
  | response
deriving DecidableEq, Repr

/-- Heap index of a facet of the context whose id is `c` (the factory
allocates context, request and response consecutively). -/
def facetIndex (c : Nat) : Facet → Nat
  | .context => c
  | .request => c + 1
  | .response => c + 2

/-- Shared application-level prototype backing a facet. -/
def facetProto (app : AppRefs) : Facet → Nat
  | .context => app.contextProto
  | .request => app.requestProto
  | .response => app.responseProto

/-- Own-property keys `createContext` writes on the facets of a fresh
context. -/
def contextOwnKeys : List String :=
  ["request", "response", "app", "req", "res", "ctx", "onerror",
   "originalUrl", "starttime"]

/-- JSON-like values used for the synthetic request of an anonymous
context: strings, numbers and plain objects. -/
inductive JVal where
  | str (s : String)
  | num (n : Int)
  | obj (fields : List (String × JVal))

/-- A plain JavaScript-like object literal. -/
abbrev JObj := List (String × JVal)

/-- Embedding of `Object.assign(target, src)`: copy every own property
of the source onto the target, in order. -/
def assignObj (target : JObj) : JObj → JObj
  | [] => target
  | (k, v) :: rest => assignObj (setKey target k v) rest

/-- Own enumerable properties of a value when used as an
`Object.assign` source: objects contribute their fields, strings their
indexed characters, numbers nothing. -/
def jvalOwnProps : JVal → JObj
  | .obj fs => fs
  | .str s => s.toList.enum.map (fun p => (toString p.1, JVal.str (String.mk [p.2])))
  | .num _ => []

/-- The default synthetic request literal built by
`Application#createAnonymousContext` before overrides are applied. -/
def defaultAnonymousRequest : JObj :=
  [("headers", .obj [("x-forwarded-for", .str "127.0.0.1")]),
   ("query", .obj []),
   ("querystring", .str ""),
   ("host", .str "127.0.0.1"),
   ("hostname", .str "127.0.0.1"),
   ("protocol", .str "http"),
   ("secure", .str "false"),
   ("method", .str "GET"),
   ("url", .str "/"),
   ("path", .str "/"),
   ("socket", .obj [("remoteAddress", .str "127.0.0.1"),
                    ("remotePort", .num 7001)])]

/-- Embedding of the override loop of `createAnonymousContext`: for the
keys `headers`, `query` and `socket` the override is `Object.assign`ed
into the default sub-object; every other key is assigned wholesale. -/
def applyAnonymousOverrides : JObj → JObj → JObj
  | request, [] => request
  | request, (key, v) :: rest =>
    if key = "headers" ∨ key = "query" ∨ key = "socket" then
      applyAnonymousOverrides
        (match lookupKey request key with
         | some (.obj t) => setKey request key (.obj (assignObj t (jvalOwnProps v)))
         | _ => request) rest
    else
      applyAnonymousOverrides (setKey request key v) rest

/-- The synthetic request produced by
`Application#createAnonymousContext(req)`: the defaults, with the
overrides applied when a `req` argument is given. -/
def createAnonymousRequest : Option JObj → JObj
  | none => defaultAnonymousRequest
  | some ov => applyAnonymousOverrides defaultAnonymousRequest ov

/-- Whitespace characters stripped by `String.prototype.trim` (the
forms that occur in configuration strings). -/
def isJsWhitespace (c : Char) : Bool :=
  c = ' ' || c = '\t' || c = '\n' || c = '\r'

/-- Embedding of `String.prototype.trim`: strip whitespace from both
ends. -/
def jsTrim (s : String) : String :=
  String.mk
    (((s.toList.dropWhile isJsWhitespace).reverse.dropWhile
        isJsWhitespace).reverse)

/-- Helper for `jsSplit`: walk the characters, cutting at every
separator. -/
def jsSplitAux (sep : Char) : List Char → List Char → List String
  | [], acc => [String.mk acc.reverse]
  | c :: rest, acc =>
    if c = sep then String.mk acc.reverse :: jsSplitAux sep rest []
    else jsSplitAux sep rest (c :: acc)

/-- Embedding of `String.prototype.split` with a one-character
separator. -/
def jsSplit (s : String) (sep : Char) : List String :=
  jsSplitAux sep s.toList []

/-- The slice of the configuration consumed by the secret-key
accessor. -/
structure KeysConfig where
  keys : Option String
  env : String
  baseDir : String
deriving DecidableEq, Repr

/-- The private cache cell behind the `keys` getter
(`this[KEYS]`). -/
structure KeysState where
  cache : Option (List String)
deriving DecidableEq, Repr

/-- Remediation guidance printed by the `keys` getter before throwing:
only the local and unittest environments get it. -/
def keysGuidance (cfg : KeysConfig) : List String :=
  if cfg.env = "local" ∨ cfg.env = "unittest" then
    ["Cookie need secret key to sign and encrypt.",
     "Please add `config.keys` in " ++ cfg.baseDir ++
       "/config/config.default.js"]
  else []

/-- Embedding of the `Application#keys` getter: return the cached list
if present; otherwise fail (printing guidance in local/unittest
environments) when `config.keys` is falsy, else split the
comma-separated string, trim each part, cache and return it.  The
result carries the value or error, the updated cache cell, and the
console output. -/
def getKeys (st : KeysState) (cfg : KeysConfig) :
    Except String (List String) × KeysState × List String :=
  match st.cache with
  | some l => (.ok l, st, [])
  | none =>
    match cfg.keys with
    | none => (.error "Please set config.keys first", st, keysGuidance cfg)
    | some ks =>
      if ks = "" then
        (.error "Please set config.keys first", st, keysGuidance cfg)
      else
        let l := (jsSplit ks ',').map jsTrim
        (.ok l, { cache := some l }, [])

/-- The fixed 400 Bad Request HTML body written to malformed client
sockets. -/
def DEFAULT_BAD_REQUEST_HTML : String :=
  "<html>\n  <head><title>400 Bad Request</title></head>\n  <body bgcolor=\"white\">\n  <center><h1>400 Bad Request</h1></center>\n  <hr><center>❤</center>\n  </body>\n  </html>"

/-- Byte length of the 400 body (`Buffer.byteLength`, UTF-8). -/
def DEFAULT_BAD_REQUEST_HTML_LENGTH : Nat :=
  DEFAULT_BAD_REQUEST_HTML.utf8ByteSize

/-- The literal wire response for malformed clients. -/
def DEFAULT_BAD_REQUEST_RESPONSE : String :=
  "HTTP/1.1 400 Bad Request\r\nContent-Length: " ++
    toString DEFAULT_BAD_REQUEST_HTML_LENGTH ++
    "\r\n\r\n" ++ DEFAULT_BAD_REQUEST_HTML

/-- Observable actions of the malformed-client handler: the logger
call, raw socket writes, the socket close performed by `socket.end`,
and (never emitted by this handler) context creation. -/
inductive ClientErrorAction where
  | logError (remoteAddress : String) (remotePort : Int)
      (code message : String)
  | socketWrite (data : String)
  | socketClose
  | contextCreated
deriving DecidableEq, Repr

/-- Embedding of `Application#onClientError(err, socket)`: log the
remote address, port, error code and message, then
`socket.end(DEFAULT_BAD_REQUEST_RESPONSE)` — a write of the literal
response followed by closing the socket.  No context is created. -/
def onClientError (remoteAddress : String) (remotePort : Int)
    (code message : String) : List ClientErrorAction :=
  [.logError remoteAddress remotePort code message,
   .socketWrite DEFAULT_BAD_REQUEST_RESPONSE,
   .socketClose]

/-- Embedding of `Application#[WARN_CONFUSED_CONFIG]`: iterate the
deprecated-to-replacement mapping in order and emit one warning (the
deprecated key and its replacement) for every deprecated key whose
configured value is defined; the configuration is only read, and the
function is total (never throws). -/
def warnConfusedConfig {α : Type} :
    List (String × String) → (String → Option α) → List (String × String)
  | [], _ => []
  | (key, repl) :: rest, config =>
    if (config key).isSome then
      (key, repl) :: warnConfusedConfig rest config
    else warnConfusedConfig rest config

/-- A handler on a router layer stack, with the identifier sources used
by the dump: `stack[FULLPATH]`, `stack._name` and `stack.name`. -/
structure RouterHandler where
  fullpath : Option String
  legacyName : Option String
  fname : Option String
deriving DecidableEq, Repr

/-- JavaScript truthiness fallback on an optional string (`a || b`
skips both absent and empty strings). -/
def orFalsy : Option String → String → String
  | none, d => d
  | some s, d => if s = "" then d else s

/-- Identifier dumped for a handler:
`stack[FULLPATH] || stack._name || stack.name || "anonymous"`. -/
def handlerIdentifier (hd : RouterHandler) : String :=
  orFalsy hd.fullpath (orFalsy hd.legacyName (orFalsy hd.fname "anonymous"))

/-- A regular expression value, kept as source and flags; its
`toString` is `/source/flags`. -/
structure Regexp where
  source : String
  flags : String
deriving DecidableEq, Repr

/-- Embedding of `RegExp.prototype.toString`. -/
def regexpToString (r : Regexp) : String :=
  "/" ++ r.source ++ "/" ++ r.flags

/-- A layer of `this.router.stack`. -/
structure RouterLayer where
  name : String
  methods : List String
  paramNames : List String
  path : String
  regexp : Regexp
  stack : List RouterHandler
deriving DecidableEq, Repr

/-- One element of the serialized `router.json` array. -/
structure RouterEntry where
  name : String
  methods : List String
  paramNames : List String
  path : String
  regexp : String
  stack : List String
deriving DecidableEq, Repr

/-- The entry dumped for one router layer. -/
def dumpRouterEntry (layer : RouterLayer) : RouterEntry :=
  { name := layer.name, methods := layer.methods,
    paramNames := layer.paramNames, path := layer.path,
    regexp := regexpToString layer.regexp,
    stack := layer.stack.map handlerIdentifier }

/-- The full `router.json` array: one entry per layer, in order. -/
def dumpRouters (stack : List RouterLayer) : List RouterEntry :=
  stack.map dumpRouterEntry

/-- Embedding of the router part of `Application#dumpConfig`: build the
entries and write them to `run/router.json`; a failure while writing is
caught and logged as a warning (never rethrown).  Returns the content
actually persisted (if any) and the warnings logged. -/
def dumpConfigRouter (stack : List RouterLayer)
    (writeOutcome : Except String Unit) :
    Option (List RouterEntry) × List String :=
  match writeOutcome with
  | .ok _ => (some (dumpRouters stack), [])
  | .error msg => (none, ["dumpConfig router.json error: " ++ msg])

/-- Demonstration router layer: one route named `home`, method GET,
path `/`, one anonymous handler. -/
def demoLayer : RouterLayer :=
  { name := "home", methods := ["GET"], paramNames := [], path := "/",
    regexp := ⟨"^/$", ""⟩, stack := [⟨none, none, none⟩] }

/-- A registered event handler: the event it listens to, whether it is
a `once` handler, and a tag naming the callback. -/
structure EventHandler where
  event : String
  once : Bool
  tag : String
deriving DecidableEq, Repr

/-- The listener table of the application event emitter. -/
structure EmitterState where
  handlers : List EventHandler
deriving DecidableEq, Repr

/-- `this.on(event, cb)`: append a persistent handler. -/
def onEvent (s : EmitterState) (ev tag : String) : EmitterState :=
  ⟨s.handlers ++ [⟨ev, false, tag⟩]⟩

/-- `this.once(event, cb)`: append a handler removed after its first
run. -/
def onceEvent (s : EmitterState) (ev tag : String) : EmitterState :=
  ⟨s.handlers ++ [⟨ev, true, tag⟩]⟩

/-- Emit an event: every handler listening on it runs (their tags are
returned, in order), and the `once` handlers among them are removed. -/
def emitEvent (s : EmitterState) (ev : String) : EmitterState × List String :=
  (⟨s.handlers.filter (fun hd => !(hd.event == ev && hd.once))⟩,
   (s.handlers.filter (fun hd => hd.event == ev)).map (fun hd => hd.tag))

/-- Emit a sequence of events, collecting every handler run. -/
def emitAll (s : EmitterState) : List String → EmitterState × List String
  | [] => (s, [])
  | ev :: rest =>
    let fired := (emitEvent s ev).2
    let after := emitAll (emitEvent s ev).1 rest
    (after.1, fired ++ after.2)

/-- Embedding of `Application#[BIND_EVENTS]`: a persistent
`cookieLimitExceed` handler, then a once-only `server` handler. -/
def bindEvents (s : EmitterState) : EmitterState :=
  onceEvent (onEvent s "cookieLimitExceed" "cookieLimitExceedHandler")
    "server" "onServer"

/-- The construction-time state: the emitter plus a trace of the
constructor steps already run. -/
structure ConstructionState where
  emitter : EmitterState
  trace : List String
deriving DecidableEq, Repr

/-- Constructor step `this.loader.load()`. -/
def loaderLoadStep (s : ConstructionState) : ConstructionState :=
  ⟨s.emitter, s.trace ++ ["loader.load"]⟩

/-- Constructor step `this.dumpConfig()`. -/
def dumpConfigStep (s : ConstructionState) : ConstructionState :=
  ⟨s.emitter, s.trace ++ ["dumpConfig"]⟩

/-- Constructor step `this[WARN_CONFUSED_CONFIG]()`. -/
def warnConfusedConfigStep (s : ConstructionState) : ConstructionState :=
  ⟨s.emitter, s.trace ++ ["warnConfusedConfig"]⟩

/-- Constructor step `this[BIND_EVENTS]()`. -/
def bindEventsStep (s : ConstructionState) : ConstructionState :=
  ⟨bindEvents s.emitter, s.trace ++ ["bindEvents"]⟩

/-- Embedding of the `Application` constructor body after `super`: load
the app via the loader, dump the configuration, warn about confused
configuration, then bind the events — synchronously and in that
order. -/
def applicationConstructor (s : ConstructionState) : ConstructionState :=
  bindEventsStep (warnConfusedConfigStep (dumpConfigStep (loaderLoadStep s)))

/-- The state before the constructor runs: no handlers, no steps. -/
def initialConstructionState : ConstructionState := ⟨⟨[]⟩, []⟩

/-- The emitter as bound by the constructor. -/
def boundEmitter : EmitterState :=
  ⟨[⟨"cookieLimitExceed", false, "cookieLimitExceedHandler"⟩,
    ⟨"server", true, "onServer"⟩]⟩

/-- The emitter after the once-only `server` handler has fired. -/
def firedEmitter : EmitterState :=
  ⟨[⟨"cookieLimitExceed", false, "cookieLimitExceedHandler"⟩]⟩

/-- The store behind `Application#locals`: allocated bags (so object
identity is an index) and the private cell `this[LOCALS]`. -/
structure LocalsStore where
  bags : List JObj
  cell : Option Nat

/-- A locals store is well-formed when its cell points at an allocated
bag. -/
def localsWF (s : LocalsStore) : Prop :=
  ∀ i, s.cell = some i → i < s.bags.length

/-- Embedding of the `locals` getter: lazily allocate an empty bag on
first access, then always return the same bag. -/
def localsGet (s : LocalsStore) : Nat × LocalsStore :=
  match s.cell with
  | some i => (i, s)
  | none => (s.bags.length, ⟨s.bags ++ [[]], some s.bags.length⟩)

/-- Embedding of the `locals` setter: lazily allocate the bag if
needed, then `assign(this[LOCALS], val)` — merge the assigned keys into
the existing bag, never replacing it. -/
def localsSet (s : LocalsStore) (val : JObj) : LocalsStore :=
  match s.cell with
  | some i =>
    ⟨s.bags.set i (assignObj ((s.bags[i]?).getD []) val), some i⟩
  | none => ⟨s.bags ++ [assignObj [] val], some s.bags.length⟩

/-- Read a key of the current locals bag. -/
def localsRead (s : LocalsStore) (q : String) : Option JVal :=
  match s.cell with
  | some i =>
    match s.bags[i]? with
    | some bag => lookupKey bag q
    | none => none
  | none => none

/-- Unfolding equation for `setKey` on the empty property list. -/
theorem setKey_nil {α : Type} (q : String) (v : α) :
    setKey [] q v = [(q, v)] := rfl

/-- Unfolding equation for `setKey` on a nonempty property list. -/
theorem setKey_cons {α : Type} (k : String) (w : α) (rest : List (String × α))
    (q : String) (v : α) :
    setKey ((k, w) :: rest) q v =
      if k = q then (k, v) :: rest else (k, w) :: setKey rest q v := rfl

/-- Unfolding equation for `setField` at index zero. -/
theorem setField_zero (p : Option Nat) (fs : List (String × Value))
    (rest : Heap) (k : String) (v : Value) :
    setField (⟨p, fs⟩ :: rest) 0 k v = ⟨p, setKey fs k v⟩ :: rest := rfl

/-- Unfolding equation for `setField` at a successor index. -/
theorem setField_succ (o : Obj) (rest : Heap) (i : Nat) (k : String)
    (v : Value) :
    setField (o :: rest) (i + 1) k v = o :: setField rest i k v := rfl

/-- Indexing past the left part of an appended list reads the right
part. -/
theorem getElem?_append_add {α : Type} (l l' : List α) (i : Nat) :
    (l ++ l')[l.length + i]? = l'[i]? := by
  rw [List.getElem?_append_right (Nat.le_add_right _ _), Nat.add_sub_cancel_left]

/-- Field assignment at an index past the left part of an appended heap
acts on the right part. -/
theorem setField_append (h l : Heap) (i : Nat) (k : String) (v : Value) :
    setField (h ++ l) (h.length + i) k v = h ++ setField l i k v := by
  induction h with
  | nil => simp
  | cons x xs ih => simpa [setField, Nat.succ_add] using ih

/-- Variant of `setField_append` for offset zero. -/
theorem setField_append₀ (h l : Heap) (k : String) (v : Value) :
    setField (h ++ l) h.length k v = h ++ setField l 0 k v := by
  simpa using setField_append h l 0 k v

/-- Own-property reads below the append boundary ignore the appended
objects. -/
theorem ownRead_append (h l : Heap) (i : Nat) (k : String) (hi : i < h.length) :
    ownRead (h ++ l) i k = ownRead h i k := by
  unfold ownRead
  rw [List.getElem?_append_left hi]

/-- Indexing an appended list at exactly the left length reads the
first appended element. -/
theorem getElem?_append_len {α : Type} (l l' : List α) :
    (l ++ l')[l.length]? = l'[0]? := by
  simpa using getElem?_append_add l l' 0

/-- Own-property reads succeed at any positive fuel, so `readField`
returns them whenever the heap is nonempty. -/
theorem readField_own {h : Heap} {i : Nat} {k : String} {o : Obj} {v : Value}
    (hlen : 0 < h.length) (ho : h[i]? = some o)
    (hk : lookupKey o.fields k = some v) :
    readField h i k = some v := by
  obtain ⟨n, hn⟩ := Nat.exists_eq_add_of_lt hlen
  unfold readField
  rw [hn]
  simp [Nat.zero_add, getField, ho, hk]

/-- Normal form of `createContext`: it appends exactly the three facet
objects to the heap and returns the context id `h.length`; no existing
object is touched. -/
theorem createContext_eq (h : Heap) (app : AppRefs) (reqId resId : Nat)
    (now : Int) (hreq : reqId < h.length) :
    createContext h app reqId resId now =
      (h ++ [newContextObj app h.length reqId resId
               ((ownRead h reqId "url").getD .undef) now,
             newRequestObj app h.length reqId resId
               ((ownRead h reqId "url").getD .undef),
             newResponseObj app h.length reqId resId], h.length) := by
  simp only [createContext, alloc, List.append_assoc, List.singleton_append,
    List.length_append, List.length_cons, List.length_nil, List.cons_append,
    List.nil_append]
  simp only [Nat.zero_add, Nat.reduceAdd]
  simp only [setField_append, setField_append₀]
  simp only [ownRead_append _ _ _ _ hreq]
  simp only [newContextObj, newRequestObj, newResponseObj]
  simp only [setField_zero, setField_succ, setKey_nil, setKey_cons,
    String.reduceEq, reduceIte, Nat.reduceAdd]

/-- A heap extended by the three facet objects is nonempty. -/
theorem length_append3_pos (h : Heap) (a b c : Obj) :
    0 < (h ++ [a, b, c]).length := by
  simp only [List.length_append, List.length_cons, List.length_nil]
  omega

/-- Field assignment never changes the number of heap objects. -/
theorem setField_length (h : Heap) (i : Nat) (k : String) (v : Value) :
    (setField h i k v).length = h.length := by
  induction h generalizing i with
  | nil => rfl
  | cons o rest ih =>
    cases o with
    | mk p fs =>
      cases i with
      | zero => rfl
      | succ j => simpa [setField] using ih j

/-- Field assignment leaves every other object untouched. -/
theorem getElem?_setField_ne (h : Heap) (i j : Nat) (k : String) (v : Value)
    (hij : i ≠ j) : (setField h i k v)[j]? = h[j]? := by
  induction h generalizing i j with
  | nil => rfl
  | cons o rest ih =>
    cases o with
    | mk p fs =>
      cases i with
      | zero =>
        cases j with
        | zero => exact absurd rfl hij
        | succ j' => simp [setField]
      | succ i' =>
        cases j with
        | zero => simp [setField]
        | succ j' => simpa [setField] using ih i' j' (fun e => hij (by rw [e]))

/-- Unfolding equation for the fuelled prototype-chain read. -/
theorem getField_unfold (fuel : Nat) (h : Heap) (i : Nat) (k : String) :
    getField (fuel + 1) h i k =
      match h[i]? with
      | none => none
      | some o =>
        match lookupKey o.fields k with
        | some v => some v
        | none =>
          match o.proto with
          | some p => getField fuel h p k
          | none => none := rfl

/-- A prototype-chain read that misses the own properties steps to the
prototype with one unit of fuel spent. -/
theorem getField_step {h : Heap} {i : Nat} {k : String} {o : Obj} {p : Nat}
    (fuel : Nat) (ho : h[i]? = some o) (hmiss : lookupKey o.fields k = none)
    (hp : o.proto = some p) :
    getField (fuel + 1) h i k = getField fuel h p k := by
  simp only [getField_unfold, ho, hmiss, hp]

/-- In a heap whose prototype pointers strictly decrease, the fuelled
read is independent of the fuel as soon as the fuel exceeds the start
index. -/
theorem getField_stable (h : Heap) (k : String)
    (Hdec : ∀ (j : Nat) (o : Obj) (p : Nat),
      h[j]? = some o → o.proto = some p → p < j) :
    ∀ i fuel₁ fuel₂, i < fuel₁ → i < fuel₂ →
      getField fuel₁ h i k = getField fuel₂ h i k := by
  intro i
  induction i using Nat.strong_induction_on with
  | _ i ih =>
    intro fuel₁ fuel₂ h1 h2
    obtain ⟨f1, rfl⟩ : ∃ f, fuel₁ = f + 1 := ⟨fuel₁ - 1, by omega⟩
    obtain ⟨f2, rfl⟩ : ∃ f, fuel₂ = f + 1 := ⟨fuel₂ - 1, by omega⟩
    rw [getField_unfold, getField_unfold]
    cases ho : h[i]? with
    | none => simp only [ho]
    | some o =>
      simp only [ho]
      cases hk : lookupKey o.fields k with
      | some v => simp only [hk]
      | none =>
        simp only [hk]
        cases hp : o.proto with
        | none => simp only [hp]
        | some p =>
          simp only [hp]
          have hpi : p < i := Hdec i o p ho hp
          exact ih p hpi f1 f2 (by omega) (by omega)

/-- Writing a field on an object at index at least `n` cannot be seen
from any chain that starts elsewhere, provided every prototype pointer
in the heap stays below `n`. -/
theorem getField_setField_untouched (h : Heap) (n X : Nat) (k' : String)
    (v' : Value) (k : String)
    (Hpb : ∀ (j : Nat) (o : Obj) (p : Nat),
      h[j]? = some o → o.proto = some p → p < n)
    (hX : n ≤ X) :
    ∀ fuel i, i ≠ X →
      getField fuel (setField h X k' v') i k = getField fuel h i k := by
  intro fuel
  induction fuel with
  | zero => intro i _; rfl
  | succ f ih =>
    intro i hiX
    rw [getField_unfold, getField_unfold, getElem?_setField_ne h X i k' v' hiX.symm]
    cases ho : h[i]? with
    | none => simp only [ho]
    | some o =>
      simp only [ho]
      cases hk : lookupKey o.fields k with
      | some v => simp only [hk]
      | none =>
        simp only [hk]
        cases hp : o.proto with
        | none => simp only [hp]
        | some p =>
          simp only [hp]
          have hpn : p < n := Hpb i o p ho hp
          exact ih p (by omega)

/-- Prototype pointers of an extended heap stay strictly below their
index when the base heap is well-formed and the appended objects point
below the base. -/
theorem protoDec_append (h0 L : Heap)
    (Hdec : ∀ (j : Nat) (o : Obj) (p : Nat),
      h0[j]? = some o → o.proto = some p → p < j)
    (HL : ∀ o ∈ L, ∀ (p : Nat), o.proto = some p → p < h0.length) :
    ∀ (j : Nat) (o : Obj) (p : Nat),
      (h0 ++ L)[j]? = some o → o.proto = some p → p < j := by
  intro j o p hj hp
  by_cases hjn : j < h0.length
  · rw [List.getElem?_append_left hjn] at hj
    exact Hdec j o p hj hp
  · rw [List.getElem?_append_right (Nat.le_of_not_lt hjn)] at hj
    exact Nat.lt_of_lt_of_le (HL o (List.getElem?_mem hj) p hp)
      (Nat.le_of_not_lt hjn)

/-- Prototype pointers of an extended heap stay strictly below the base
length under the same conditions. -/
theorem protoBound_append (h0 L : Heap)
    (Hdec : ∀ (j : Nat) (o : Obj) (p : Nat),
      h0[j]? = some o → o.proto = some p → p < j)
    (HL : ∀ o ∈ L, ∀ (p : Nat), o.proto = some p → p < h0.length) :
    ∀ (j : Nat) (o : Obj) (p : Nat),
      (h0 ++ L)[j]? = some o → o.proto = some p → p < h0.length := by
  intro j o p hj hp
  by_cases hjn : j < h0.length
  · rw [List.getElem?_append_left hjn] at hj
    exact Nat.lt_trans (Hdec j o p hj hp) hjn
  · rw [List.getElem?_append_right (Nat.le_of_not_lt hjn)] at hj
    exact HL o (List.getElem?_mem hj) p hp

/-- Look a key up in a property list none of whose keys match. -/
theorem lookupKey_none_of_not_mem {α : Type} (fs : List (String × α)) (q : String)
    (hq : q ∉ fs.map Prod.fst) : lookupKey fs q = none := by
  induction fs with
  | nil => rfl
  | cons kv rest ih =>
    cases kv with
    | mk k w =>
      simp only [List.map, List.mem_cons] at hq
      push_neg at hq
      rw [lookupKey, if_neg (fun e => hq.1 e.symm)]
      exact ih hq.2

/-- Context creation grows the heap by exactly three objects. -/
theorem createContext_length (h : Heap) (app : AppRefs) (reqId resId : Nat)
    (now : Int) (hreq : reqId < h.length) :
    (createContext h app reqId resId now).1.length = h.length + 3 := by
  rw [createContext_eq h app reqId resId now hreq]
  simp only [List.length_append, List.length_cons, List.length_nil]

/-- Writes to an object in the appended region are invisible to reads
starting at any other index, because no prototype pointer can reach the
written object. -/
theorem readField_setField_other (h0 L : Heap) (X Y : Nat) (k' k : String)
    (v : Value)
    (Hdec : ∀ (j : Nat) (o : Obj) (p : Nat),
      h0[j]? = some o → o.proto = some p → p < j)
    (HL : ∀ o ∈ L, ∀ (p : Nat), o.proto = some p → p < h0.length)
    (hX : h0.length ≤ X) (hXY : Y ≠ X) :
    readField (setField (h0 ++ L) X k' v) Y k = readField (h0 ++ L) Y k := by
  unfold readField
  rw [setField_length]
  exact getField_setField_untouched (h0 ++ L) h0.length X k' v k
    (protoBound_append h0 L Hdec HL) hX _ Y hXY

/-- A read that misses the own properties of an appended object equals
the read on its (shared, in-base) prototype. -/
theorem readField_fallback (h0 L : Heap) (j p : Nat) (o : Obj) (k : String)
    (Hdec : ∀ (j : Nat) (o : Obj) (p : Nat),
      h0[j]? = some o → o.proto = some p → p < j)
    (HL : ∀ o ∈ L, ∀ (p : Nat), o.proto = some p → p < h0.length)
    (hL : 0 < L.length)
    (hj : (h0 ++ L)[j]? = some o) (hmiss : lookupKey o.fields k = none)
    (hp : o.proto = some p) (hpn : p < h0.length) :
    readField (h0 ++ L) j k = readField (h0 ++ L) p k := by
  have hlen : (h0 ++ L).length = h0.length + L.length :=
    List.length_append h0 L
  obtain ⟨f, hf⟩ : ∃ f, (h0 ++ L).length = f + 1 :=
    ⟨(h0 ++ L).length - 1, by omega⟩
  have hnf : h0.length ≤ f := by omega
  unfold readField
  rw [hf, getField_step f hj hmiss hp]
  exact getField_stable (h0 ++ L) k (protoDec_append h0 L Hdec HL) p f (f + 1)
    (by omega) (by omega)

/-- All six facet objects of two freshly created contexts point to the
shared prototypes. -/
theorem facetObjs_proto_lt (app : AppRefs) (n1 n2 r1 s1 r2 s2 : Nat)
    (u1 u2 : Value) (t1 t2 : Int) (nb : Nat)
    (Hc : app.contextProto < nb) (Hr : app.requestProto < nb)
    (Hs : app.responseProto < nb) :
    ∀ o ∈ ([newContextObj app n1 r1 s1 u1 t1, newRequestObj app n1 r1 s1 u1,
            newResponseObj app n1 r1 s1, newContextObj app n2 r2 s2 u2 t2,
            newRequestObj app n2 r2 s2 u2, newResponseObj app n2 r2 s2] :
            Heap),
      ∀ (p : Nat), o.proto = some p → p < nb := by
  intro o ho p hp
  simp only [List.mem_cons, List.not_mem_nil, or_false] at ho
  rcases ho with rfl | rfl | rfl | rfl | rfl | rfl <;>
    simp only [newContextObj, newRequestObj, newResponseObj,
      Option.some.injEq] at hp <;>
    omega

/-- A key the factory never writes is absent from the own properties of
a fresh context facet. -/
theorem newContextObj_lookup_none (app : AppRefs) (n r s : Nat) (u : Value)
    (t : Int) (q : String) (hq : q ∉ contextOwnKeys) :
    lookupKey (newContextObj app n r s u t).fields q = none := by
  apply lookupKey_none_of_not_mem
  simp only [contextOwnKeys, List.mem_cons, List.not_mem_nil] at hq
  simp only [newContextObj, List.map, List.mem_cons, List.not_mem_nil]
  tauto

/-- A key the factory never writes is absent from the own properties of
a fresh request facet. -/
theorem newRequestObj_lookup_none (app : AppRefs) (n r s : Nat) (u : Value)
    (q : String) (hq : q ∉ contextOwnKeys) :
    lookupKey (newRequestObj app n r s u).fields q = none := by
  apply lookupKey_none_of_not_mem
  simp only [contextOwnKeys, List.mem_cons, List.not_mem_nil] at hq
  simp only [newRequestObj, List.map, List.mem_cons, List.not_mem_nil]
  tauto

/-- A key the factory never writes is absent from the own properties of
a fresh response facet. -/
theorem newResponseObj_lookup_none (app : AppRefs) (n r s : Nat) (q : String)
    (hq : q ∉ contextOwnKeys) :
    lookupKey (newResponseObj app n r s).fields q = none := by
  apply lookupKey_none_of_not_mem
  simp only [contextOwnKeys, List.mem_cons, List.not_mem_nil] at hq
  simp only [newResponseObj, List.map, List.mem_cons, List.not_mem_nil]
  tauto

/-- Facet indices stay within two of the context id. -/
theorem facetIndex_le (c : Nat) (f : Facet) : facetIndex c f ≤ c + 2 := by
  cases f <;> simp [facetIndex]

/-- Facet indices are at least the context id. -/
theorem le_facetIndex (c : Nat) (f : Facet) : c ≤ facetIndex c f := by
  cases f <;> simp [facetIndex]

/-- C2: for every context returned by `createContext(req, res)` with
valid (non-null) `req` and `res`, immediately after creation
`context.request.ctx === context`, `context.response.ctx === context`,
`context.request.response === context.response`,
`context.response.request === context.request`; `context.app`,
`request.app` and `response.app` all reference the application;
`context.req`, `request.req`, `response.req === req`; `context.res`,
`request.res`, `response.res === res`; and
`context.originalUrl === request.originalUrl === req.url`. -/
theorem createContext_backrefs
    (h : Heap) (app : AppRefs) (reqId resId : Nat) (now : Int)
    (h' : Heap) (c : Nat)
    (hreq : reqId < h.length) (hres : resId < h.length)
    (hcc : createContext h app reqId resId now = (h', c)) :
    readField h' c "request" = some (.ref (c + 1)) ∧
    readField h' (c + 1) "ctx" = some (.ref c) ∧
    readField h' c "response" = some (.ref (c + 2)) ∧
    readField h' (c + 2) "ctx" = some (.ref c) ∧
    readField h' (c + 1) "response" = some (.ref (c + 2)) ∧
    readField h' (c + 2) "request" = some (.ref (c + 1)) ∧
    readField h' c "app" = some (.ref app.appId) ∧
    readField h' (c + 1) "app" = some (.ref app.appId) ∧
    readField h' (c + 2) "app" = some (.ref app.appId) ∧
    readField h' c "req" = some (.ref reqId) ∧
    readField h' (c + 1) "req" = some (.ref reqId) ∧
    readField h' (c + 2) "req" = some (.ref reqId) ∧
    readField h' c "res" = some (.ref resId) ∧
    readField h' (c + 1) "res" = some (.ref resId) ∧
    readField h' (c + 2) "res" = some (.ref resId) ∧
    readField h' c "originalUrl" = some ((ownRead h reqId "url").getD .undef) ∧
    readField h' (c + 1) "originalUrl" =
      some ((ownRead h reqId "url").getD .undef) := by
  rw [createContext_eq h app reqId resId now hreq] at hcc
  injection hcc with hh hc
  subst hh
  subst hc
  refine ⟨?_, ?_, ?_, ?_, ?_, ?_, ?_, ?_, ?_, ?_, ?_, ?_, ?_, ?_, ?_, ?_, ?_⟩
  all_goals apply readField_own (length_append3_pos _ _ _ _)
  all_goals first
    | exact (getElem?_append_len _ _).trans rfl
    | exact (getElem?_append_add _ _ _).trans rfl
    | simp [newContextObj, newRequestObj, newResponseObj, lookupKey]

/-- A heap whose objects all lack prototypes vacuously has strictly
decreasing prototype pointers. -/
theorem protoDec_of_all_none (h : Heap) (hnone : ∀ o ∈ h, o.proto = none) :
    ∀ (j : Nat) (o : Obj) (p : Nat),
      h[j]? = some o → o.proto = some p → p < j := by
  intro j o p hj hp
  rw [hnone o (List.getElem?_mem hj)] at hp
  exact Option.noConfusion hp

/-- C1: per-context writes are local and reads fall back to the shared
application-level prototypes: for two contexts A and B created by
`createContext`, a write to any field on any facet of one context is
never visible when reading the same field on the corresponding (or any)
facet of the other, and a field never written on either context reads
the shared prototype's value on both. -/
theorem context_isolation
    (h0 : Heap) (app : AppRefs) (req1 res1 req2 res2 : Nat)
    (now1 now2 : Int) (k : String) (v : Value)
    (h1 h2 : Heap) (cA cB : Nat)
    (Hdec : ∀ (j : Nat) (o : Obj) (p : Nat),
      h0[j]? = some o → o.proto = some p → p < j)
    (Hc : app.contextProto < h0.length) (Hr : app.requestProto < h0.length)
    (Hs : app.responseProto < h0.length)
    (hreq1 : req1 < h0.length) (hres1 : res1 < h0.length)
    (hreq2 : req2 < h0.length) (hres2 : res2 < h0.length)
    (hA : createContext h0 app req1 res1 now1 = (h1, cA))
    (hB : createContext h1 app req2 res2 now2 = (h2, cB)) :
    (∀ fA fB : Facet,
      readField (setField h2 (facetIndex cA fA) k v) (facetIndex cB fB) k =
        readField h2 (facetIndex cB fB) k) ∧
    (∀ fA fB : Facet,
      readField (setField h2 (facetIndex cB fB) k v) (facetIndex cA fA) k =
        readField h2 (facetIndex cA fA) k) ∧
    (k ∉ contextOwnKeys → ∀ f : Facet,
      readField h2 (facetIndex cA f) k = readField h2 (facetProto app f) k ∧
      readField h2 (facetIndex cB f) k = readField h2 (facetProto app f) k) := by
  have h1len : h1.length = h0.length + 3 := by
    have hfst := congrArg Prod.fst hA
    simp only at hfst
    rw [← hfst, createContext_length h0 app req1 res1 now1 hreq1]
  have hreq2' : req2 < h1.length := by omega
  rw [createContext_eq h1 app req2 res2 now2 hreq2'] at hB
  rw [createContext_eq h0 app req1 res1 now1 hreq1] at hA
  injection hA with hh1 hc1
  subst hh1
  subst hc1
  injection hB with hh2 hc2
  subst hh2
  subst hc2
  simp only [List.append_assoc, List.cons_append, List.nil_append,
    List.length_append, List.length_cons, List.length_nil,
    ownRead_append _ _ _ _ hreq2, Nat.add_zero, Nat.zero_add,
    Nat.reduceAdd] at *
  refine ⟨?_, ?_, ?_⟩
  · intro fA fB
    exact readField_setField_other h0 _ _ _ k k v Hdec
      (facetObjs_proto_lt app _ _ _ _ _ _ _ _ _ _ _ Hc Hr Hs)
      (le_facetIndex _ fA)
      (by have e1 := facetIndex_le h0.length fA
          have e2 := le_facetIndex (h0.length + 3) fB
          omega)
  · intro fA fB
    exact readField_setField_other h0 _ _ _ k k v Hdec
      (facetObjs_proto_lt app _ _ _ _ _ _ _ _ _ _ _ Hc Hr Hs)
      (by have e2 := le_facetIndex (h0.length + 3) fB
          omega)
      (by have e1 := facetIndex_le h0.length fA
          have e2 := le_facetIndex (h0.length + 3) fB
          omega)
  · intro hk f
    cases f with
    | context =>
      constructor
      · exact readField_fallback h0 _ _ _ _ k Hdec
          (facetObjs_proto_lt app _ _ _ _ _ _ _ _ _ _ _ Hc Hr Hs)
          (by simp) ((getElem?_append_len _ _).trans rfl)
          (newContextObj_lookup_none app _ _ _ _ _ _ hk) rfl Hc
      · exact readField_fallback h0 _ _ _ _ k Hdec
          (facetObjs_proto_lt app _ _ _ _ _ _ _ _ _ _ _ Hc Hr Hs)
          (by simp) ((getElem?_append_add _ _ 3).trans rfl)
          (newContextObj_lookup_none app _ _ _ _ _ _ hk) rfl Hc
    | request =>
      constructor
      · exact readField_fallback h0 _ _ _ _ k Hdec
          (facetObjs_proto_lt app _ _ _ _ _ _ _ _ _ _ _ Hc Hr Hs)
          (by simp) ((getElem?_append_add _ _ 1).trans rfl)
          (newRequestObj_lookup_none app _ _ _ _ _ hk) rfl Hr
      · exact readField_fallback h0 _ _ _ _ k Hdec
          (facetObjs_proto_lt app _ _ _ _ _ _ _ _ _ _ _ Hc Hr Hs)
          (by simp) ((getElem?_append_add _ _ 4).trans rfl)
          (newRequestObj_lookup_none app _ _ _ _ _ hk) rfl Hr
    | response =>
      constructor
      · exact readField_fallback h0 _ _ _ _ k Hdec
          (facetObjs_proto_lt app _ _ _ _ _ _ _ _ _ _ _ Hc Hr Hs)
          (by simp) ((getElem?_append_add _ _ 2).trans rfl)
          (newResponseObj_lookup_none app _ _ _ _ hk) rfl Hs
      · exact readField_fallback h0 _ _ _ _ k Hdec
          (facetObjs_proto_lt app _ _ _ _ _ _ _ _ _ _ _ Hc Hr Hs)
          (by simp) ((getElem?_append_add _ _ 5).trans rfl)
          (newResponseObj_lookup_none app _ _ _ _ hk) rfl Hs

/-- Witness for C1: on the concrete demonstration heap, a write to the
request facet of context A is invisible on the request facet of
context B. -/
theorem context_isolation_witness :
    readField
        (setField demoCtxB.1 (facetIndex demoCtxA.2 .request) "user"
          (.str "alice"))
        (facetIndex demoCtxB.2 .request) "user" =
      readField demoCtxB.1 (facetIndex demoCtxB.2 .request) "user" :=
  (context_isolation demoHeap demoApp 4 5 4 5 1 2 "user" (.str "alice")
    demoCtxA.1 demoCtxB.1 demoCtxA.2 demoCtxB.2
    (protoDec_of_all_none demoHeap (by decide)) (by decide) (by decide)
    (by decide) (by decide) (by decide) (by decide) (by decide)
    rfl rfl).1 .request .request

/-- Witness for C2 on the concrete demonstration heap. -/
theorem createContext_backrefs_witness :
    (4 < demoHeap.length ∧ 5 < demoHeap.length) ∧
    readField (createContext demoHeap demoApp 4 5 99).1
        (createContext demoHeap demoApp 4 5 99).2 "request" =
      some (.ref ((createContext demoHeap demoApp 4 5 99).2 + 1)) :=
  ⟨⟨by decide, by decide⟩,
   (createContext_backrefs demoHeap demoApp 4 5 99 _ _ (by decide) (by decide)
     rfl).1⟩

/-- Setting a key makes it readable with the written value. -/
theorem lookupKey_setKey_self {α : Type} (fs : List (String × α)) (k : String)
    (v : α) : lookupKey (setKey fs k v) k = some v := by
  induction fs with
  | nil => simp [setKey, lookupKey]
  | cons kv rest ih =>
    cases kv with
    | mk k' w =>
      by_cases hk : k' = k
      · subst hk
        simp [setKey, lookupKey]
      · simp only [setKey, if_neg hk, lookupKey]
        exact ih

/-- Setting a key leaves every other key unchanged. -/
theorem lookupKey_setKey_ne {α : Type} (fs : List (String × α)) (k q : String)
    (v : α) (hq : q ≠ k) : lookupKey (setKey fs k v) q = lookupKey fs q := by
  induction fs with
  | nil =>
    simp only [setKey, lookupKey]
    rw [if_neg (fun e => hq e.symm)]
  | cons kv rest ih =>
    cases kv with
    | mk k' w =>
      by_cases hk : k' = k
      · subst hk
        simp only [setKey, if_pos rfl, lookupKey]
        rw [if_neg (fun e => hq e.symm), if_neg (fun e => hq e.symm)]
      · simp only [setKey, if_neg hk, lookupKey]
        by_cases hk'q : k' = q
        · rw [if_pos hk'q, if_pos hk'q]
        · rw [if_neg hk'q, if_neg hk'q]
          exact ih

/-- A key is absent from a property list exactly when looking it up
yields nothing. -/
theorem lookupKey_eq_none_iff {α : Type} (fs : List (String × α))
    (q : String) : lookupKey fs q = none ↔ q ∉ fs.map Prod.fst := by
  induction fs with
  | nil => simp [lookupKey]
  | cons kv rest ih =>
    cases kv with
    | mk k v =>
      simp only [lookupKey, List.map, List.mem_cons]
      by_cases hk : k = q
      · subst hk
        simp
      · rw [if_neg hk]
        simp only [ih]
        constructor
        · intro hn
          intro hc
          rcases hc with hc | hc
          · exact hk hc.symm
          · exact hn hc
        · intro hn
          intro hc
          exact hn (Or.inr hc)

/-- `Object.assign` leaves keys absent from the source unchanged. -/
theorem assignObj_lookup_not_mem (t s : JObj) (q : String)
    (hq : q ∉ s.map Prod.fst) :
    lookupKey (assignObj t s) q = lookupKey t q := by
  induction s generalizing t with
  | nil => rfl
  | cons kv rest ih =>
    cases kv with
    | mk k v =>
      simp only [List.map, List.mem_cons] at hq
      push_neg at hq
      rw [assignObj, ih (setKey t k v) hq.2,
        lookupKey_setKey_ne _ _ _ _ hq.1]

/-- The override loop leaves keys absent from the overrides unchanged. -/
theorem applyOverrides_lookup_not_mem (ov : JObj) (r : JObj) (q : String)
    (hq : q ∉ ov.map Prod.fst) :
    lookupKey (applyAnonymousOverrides r ov) q = lookupKey r q := by
  induction ov generalizing r with
  | nil => rfl
  | cons kv rest ih =>
    cases kv with
    | mk k v =>
      simp only [List.map, List.mem_cons] at hq
      push_neg at hq
      rw [applyAnonymousOverrides]
      by_cases hsp : k = "headers" ∨ k = "query" ∨ k = "socket"
      · rw [if_pos hsp]
        cases hr : lookupKey r k with
        | none => simp only [hr]; exact ih r hq.2
        | some w =>
          cases w with
          | str s => simp only [hr]; exact ih r hq.2
          | num n => simp only [hr]; exact ih r hq.2
          | obj t =>
            simp only [hr]
            rw [ih _ hq.2, lookupKey_setKey_ne _ _ _ _ hq.1]
      · rw [if_neg hsp, ih _ hq.2, lookupKey_setKey_ne _ _ _ _ hq.1]

/-- A non-special override key is copied wholesale onto the request. -/
theorem applyOverrides_lookup_replace (ov : JObj) (r : JObj) (q : String)
    (w : JVal) (hnd : (ov.map Prod.fst).Nodup)
    (hq1 : q ≠ "headers") (hq2 : q ≠ "query") (hq3 : q ≠ "socket")
    (hw : lookupKey ov q = some w) :
    lookupKey (applyAnonymousOverrides r ov) q = some w := by
  induction ov generalizing r with
  | nil => simp [lookupKey] at hw
  | cons kv rest ih =>
    cases kv with
    | mk k v =>
      simp only [List.map, List.nodup_cons] at hnd
      rw [lookupKey] at hw
      rw [applyAnonymousOverrides]
      by_cases hkq : k = q
      · subst hkq
        rw [if_pos rfl] at hw
        injection hw with hvw
        subst hvw
        have hnsp : ¬(k = "headers" ∨ k = "query" ∨ k = "socket") := by
          intro hc
          rcases hc with h | h | h
          · exact hq1 h
          · exact hq2 h
          · exact hq3 h
        rw [if_neg hnsp, applyOverrides_lookup_not_mem rest _ k hnd.1]
        exact lookupKey_setKey_self r k v
      · rw [if_neg hkq] at hw
        by_cases hsp : k = "headers" ∨ k = "query" ∨ k = "socket"
        · rw [if_pos hsp]
          cases hr : lookupKey r k with
          | none => simp only [hr]; exact ih r hnd.2 hw
          | some u =>
            cases u with
            | str s => simp only [hr]; exact ih r hnd.2 hw
            | num n => simp only [hr]; exact ih r hnd.2 hw
            | obj t => simp only [hr]; exact ih _ hnd.2 hw
        · rw [if_neg hsp]
          exact ih _ hnd.2 hw

/-- A special override key (`headers`, `query`, `socket`) is
shallow-merged into the default sub-object. -/
theorem applyOverrides_lookup_merge (ov : JObj) (r : JObj) (q : String)
    (s t : JObj) (hnd : (ov.map Prod.fst).Nodup)
    (hsp : q = "headers" ∨ q = "query" ∨ q = "socket")
    (hov : lookupKey ov q = some (.obj s))
    (hr : lookupKey r q = some (.obj t)) :
    lookupKey (applyAnonymousOverrides r ov) q =
      some (.obj (assignObj t s)) := by
  induction ov generalizing r with
  | nil => simp [lookupKey] at hov
  | cons kv rest ih =>
    cases kv with
    | mk k v =>
      simp only [List.map, List.nodup_cons] at hnd
      rw [lookupKey] at hov
      rw [applyAnonymousOverrides]
      by_cases hkq : k = q
      · subst hkq
        rw [if_pos rfl] at hov
        injection hov with hvs
        subst hvs
        rw [if_pos hsp]
        simp only [hr]
        rw [applyOverrides_lookup_not_mem rest _ k hnd.1]
        exact lookupKey_setKey_self r k _
      · rw [if_neg hkq] at hov
        by_cases hksp : k = "headers" ∨ k = "query" ∨ k = "socket"
        · rw [if_pos hksp]
          cases hrk : lookupKey r k with
          | none => simp only [hrk]; exact ih r hnd.2 hov hr
          | some u =>
            cases u with
            | str s' => simp only [hrk]; exact ih r hnd.2 hov hr
            | num n => simp only [hrk]; exact ih r hnd.2 hov hr
            | obj t' =>
              simp only [hrk]
              exact ih _ hnd.2 hov
                ((lookupKey_setKey_ne _ _ _ _ (fun e => hkq e.symm)).trans hr)
        · rw [if_neg hksp]
          exact ih _ hnd.2 hov
            ((lookupKey_setKey_ne _ _ _ _ (fun e => hkq e.symm)).trans hr)

/-- C3: for every overrides object passed to `createAnonymousContext`,
the keys `headers`, `query` and `socket` are shallow-merged into the
corresponding default sub-object (subfields omitted from the override
keep their defaults), every other top-level key present in the
overrides replaces the default wholesale, and with no overrides the
synthetic request carries the documented defaults (method GET, url and
path `/`, host and hostname `127.0.0.1`, protocol http, empty query
and querystring, default header and socket). -/
theorem createAnonymousContext_spec :
    (∀ (ov : JObj), (ov.map Prod.fst).Nodup →
      (∀ key, (key = "headers" ∨ key = "query" ∨ key = "socket") →
        ∀ s, lookupKey ov key = some (.obj s) →
        ∃ t, lookupKey defaultAnonymousRequest key = some (.obj t) ∧
          lookupKey (createAnonymousRequest (some ov)) key =
            some (.obj (assignObj t s))) ∧
      (∀ key, key ≠ "headers" → key ≠ "query" → key ≠ "socket" →
        ∀ w, lookupKey ov key = some w →
          lookupKey (createAnonymousRequest (some ov)) key = some w) ∧
      (∀ key, lookupKey ov key = none →
        lookupKey (createAnonymousRequest (some ov)) key =
          lookupKey defaultAnonymousRequest key)) ∧
    (∀ (t s : JObj) (q : String), q ∉ s.map Prod.fst →
      lookupKey (assignObj t s) q = lookupKey t q) ∧
    createAnonymousRequest none = defaultAnonymousRequest ∧
    lookupKey defaultAnonymousRequest "method" = some (.str "GET") ∧
    lookupKey defaultAnonymousRequest "url" = some (.str "/") ∧
    lookupKey defaultAnonymousRequest "path" = some (.str "/") ∧
    lookupKey defaultAnonymousRequest "host" = some (.str "127.0.0.1") ∧
    lookupKey defaultAnonymousRequest "hostname" = some (.str "127.0.0.1") ∧
    lookupKey defaultAnonymousRequest "protocol" = some (.str "http") ∧
    lookupKey defaultAnonymousRequest "query" = some (.obj []) ∧
    lookupKey defaultAnonymousRequest "querystring" = some (.str "") ∧
    lookupKey defaultAnonymousRequest "headers" =
      some (.obj [("x-forwarded-for", .str "127.0.0.1")]) ∧
    lookupKey defaultAnonymousRequest "socket" =
      some (.obj [("remoteAddress", .str "127.0.0.1"),
                  ("remotePort", .num 7001)]) := by
  refine ⟨?_, assignObj_lookup_not_mem, rfl, rfl, rfl, rfl, rfl, rfl, rfl,
    rfl, rfl, rfl, rfl⟩
  intro ov hnd
  refine ⟨?_, ?_, ?_⟩
  · intro key hsp s hov
    rcases hsp with rfl | rfl | rfl
    · exact ⟨_, rfl, applyOverrides_lookup_merge ov _ "headers" s _ hnd
        (Or.inl rfl) hov rfl⟩
    · exact ⟨_, rfl, applyOverrides_lookup_merge ov _ "query" s _ hnd
        (Or.inr (Or.inl rfl)) hov rfl⟩
    · exact ⟨_, rfl, applyOverrides_lookup_merge ov _ "socket" s _ hnd
        (Or.inr (Or.inr rfl)) hov rfl⟩
  · intro key h1 h2 h3 w hov
    exact applyOverrides_lookup_replace ov _ key w hnd h1 h2 h3 hov
  · intro key hkn
    exact applyOverrides_lookup_not_mem ov _ key
      ((lookupKey_eq_none_iff ov key).mp hkn)

/-- Witness for C3: a query-only override keeps the default headers,
and a method override replaces the method outright. -/
theorem createAnonymousContext_spec_witness :
    lookupKey (createAnonymousRequest
        (some [("query", .obj [("a", .str "1")])])) "headers" =
      lookupKey defaultAnonymousRequest "headers" ∧
    lookupKey (createAnonymousRequest (some [("method", .str "POST")]))
        "method" = some (.str "POST") :=
  ⟨(createAnonymousContext_spec.1 [("query", .obj [("a", .str "1")])]
      (by decide)).2.2 "headers" rfl,
   (createAnonymousContext_spec.1 [("method", .str "POST")]
      (by decide)).2.1 "method" (by decide) (by decide) (by decide)
      (.str "POST") rfl⟩

/-- C8: `createContext(req, res)` has no error paths: for every valid
(non-null) `req` and `res` it terminates normally and returns a fresh
context derived from the shared context prototype, and it touches no
pre-existing heap object — it only allocates the three facets and
writes their back-references, bound error handler, `originalUrl` and
`starttime`. -/
theorem createContext_total
    (h : Heap) (app : AppRefs) (reqId resId : Nat) (now : Int)
    (h' : Heap) (c : Nat)
    (hreq : reqId < h.length) (hres : resId < h.length)
    (hcc : createContext h app reqId resId now = (h', c)) :
    h' = h ++ [newContextObj app h.length reqId resId
                 ((ownRead h reqId "url").getD .undef) now,
               newRequestObj app h.length reqId resId
                 ((ownRead h reqId "url").getD .undef),
               newResponseObj app h.length reqId resId] ∧
    c = h.length ∧
    h'.length = h.length + 3 ∧
    c < h'.length ∧
    (∀ i, i < h.length → h'[i]? = h[i]?) ∧
    (∃ o : Obj, h'[c]? = some o ∧ o.proto = some app.contextProto) := by
  rw [createContext_eq h app reqId resId now hreq] at hcc
  injection hcc with hh hc
  subst hh
  subst hc
  refine ⟨rfl, rfl, by simp, ?_, ?_, ?_⟩
  · simp only [List.length_append, List.length_cons, List.length_nil]
    omega
  · intro i hi
    exact List.getElem?_append_left hi
  · exact ⟨_, (getElem?_append_len _ _).trans rfl, rfl⟩

/-- Witness for C8 on the concrete demonstration heap. -/
theorem createContext_total_witness :
    (4 < demoHeap.length ∧ 5 < demoHeap.length) ∧
    (createContext demoHeap demoApp 4 5 7).1.length = demoHeap.length + 3 :=
  ⟨⟨by decide, by decide⟩,
   (createContext_total demoHeap demoApp 4 5 7 _ _ (by decide) (by decide)
     rfl).2.2.1⟩

/-- C4: the secret-key accessor splits `config.keys = "a, b ,c"` into
the trimmed list `["a", "b", "c"]` and caches it; a later access
returns the cached list unchanged regardless of the configuration, so
changes to `config.keys` have no effect; when `config.keys` is absent
it throws, printing the remediation guidance exactly when the
environment is `local` or `unittest`. -/
theorem keys_accessor_spec :
    (∀ env dir : String,
      getKeys ⟨none⟩ ⟨some "a, b ,c", env, dir⟩ =
        (.ok ["a", "b", "c"], ⟨some ["a", "b", "c"]⟩, [])) ∧
    (∀ (l : List String) (cfg : KeysConfig),
      getKeys ⟨some l⟩ cfg = (.ok l, ⟨some l⟩, [])) ∧
    (∀ cfg : KeysConfig, cfg.keys = none →
      getKeys ⟨none⟩ cfg =
        (.error "Please set config.keys first", ⟨none⟩,
         if cfg.env = "local" ∨ cfg.env = "unittest" then
           ["Cookie need secret key to sign and encrypt.",
            "Please add `config.keys` in " ++ cfg.baseDir ++
              "/config/config.default.js"]
         else [])) := by
  refine ⟨?_, ?_, ?_⟩
  · intro env dir
    rfl
  · intro l cfg
    rfl
  · intro cfg hk
    obtain ⟨k, env, dir⟩ := cfg
    simp only at hk
    subst hk
    rfl

/-- Witness for C4: with no secret configured, a production environment
fails without guidance and a local environment fails with it. -/
theorem keys_accessor_spec_witness :
    getKeys ⟨none⟩ ⟨none, "prod", "/srv/app"⟩ =
      (.error "Please set config.keys first", ⟨none⟩, []) ∧
    getKeys ⟨none⟩ ⟨none, "local", "/srv/app"⟩ =
      (.error "Please set config.keys first", ⟨none⟩,
       ["Cookie need secret key to sign and encrypt.",
        "Please add `config.keys` in /srv/app/config/config.default.js"]) :=
  ⟨(keys_accessor_spec.2.2 ⟨none, "prod", "/srv/app"⟩ rfl).trans (by rfl),
   (keys_accessor_spec.2.2 ⟨none, "local", "/srv/app"⟩ rfl).trans (by rfl)⟩

/-- C5: `onClientError` logs the remote address, remote port, error
code and error message, then writes exactly the literal bytes
`HTTP/1.1 400 Bad Request\r\nContent-Length: <N>\r\n\r\n<body>` where
`<N>` (168) is the exact UTF-8 byte length of the fixed HTML body, and
closes the socket after the write; no context is ever created. -/
theorem onClientError_spec :
    (∀ (addr : String) (port : Int) (code msg : String),
      onClientError addr port code msg =
        [.logError addr port code msg,
         .socketWrite ("HTTP/1.1 400 Bad Request\r\nContent-Length: " ++
           toString DEFAULT_BAD_REQUEST_HTML.utf8ByteSize ++ "\r\n\r\n" ++
           DEFAULT_BAD_REQUEST_HTML),
         .socketClose]) ∧
    DEFAULT_BAD_REQUEST_HTML_LENGTH = DEFAULT_BAD_REQUEST_HTML.utf8ByteSize ∧
    DEFAULT_BAD_REQUEST_HTML_LENGTH = 168 ∧
    DEFAULT_BAD_REQUEST_RESPONSE =
      "HTTP/1.1 400 Bad Request\r\nContent-Length: 168\r\n\r\n" ++
        DEFAULT_BAD_REQUEST_HTML ∧
    (∀ (addr : String) (port : Int) (code msg : String),
      ClientErrorAction.contextCreated ∉ onClientError addr port code msg) := by
  refine ⟨fun addr port code msg => rfl, rfl, by decide, by rfl, ?_⟩
  intro addr port code msg
  simp [onClientError]

/-- C6: `warnConfusedConfig` emits exactly one warning — naming the
deprecated key and its replacement — for each deprecated key whose
configured value is defined, and nothing for the others; it is a total
function of a read-only configuration, so it never throws and never
changes the configuration. -/
theorem warnConfusedConfig_spec :
    (∀ {α : Type} (mapping : List (String × String))
      (config : String → Option α),
      warnConfusedConfig mapping config =
        mapping.filter (fun p => (config p.1).isSome)) ∧
    (∀ {α : Type} (key repl : String) (config : String → Option α),
      warnConfusedConfig [(key, repl)] config =
        if (config key).isSome then [(key, repl)] else []) := by
  constructor
  · intro α mapping config
    induction mapping with
    | nil => rfl
    | cons p rest ih =>
      cases p with
      | mk key repl =>
        rw [warnConfusedConfig]
        by_cases h : (config key).isSome <;>
          simp [List.filter_cons, h, ih]
  · intro α key repl config
    by_cases h : (config key).isSome <;>
      simp [warnConfusedConfig, h]

/-- C7: the router dump writes one entry per router layer carrying the
layer name, methods, paramNames, path, the string form of its regexp,
and the ordered handler identifiers (FULLPATH, else `_name`, else
`name`, else `anonymous`); a write failure is caught and logged as a
warning and never propagates. -/
theorem dumpConfig_router_spec :
    (∀ stack : List RouterLayer, (dumpRouters stack).length = stack.length) ∧
    (∀ (stack : List RouterLayer) (i : Nat) (layer : RouterLayer),
      stack[i]? = some layer →
      (dumpRouters stack)[i]? = some
        { name := layer.name, methods := layer.methods,
          paramNames := layer.paramNames, path := layer.path,
          regexp := regexpToString layer.regexp,
          stack := layer.stack.map handlerIdentifier }) ∧
    (∀ hd : RouterHandler,
      (∀ s, hd.fullpath = some s → s ≠ "" → handlerIdentifier hd = s) ∧
      (hd.fullpath = none → ∀ s, hd.legacyName = some s → s ≠ "" →
        handlerIdentifier hd = s) ∧
      (hd.fullpath = none → hd.legacyName = none → ∀ s, hd.fname = some s →
        s ≠ "" → handlerIdentifier hd = s) ∧
      (hd.fullpath = none → hd.legacyName = none → hd.fname = none →
        handlerIdentifier hd = "anonymous")) ∧
    (∀ (stack : List RouterLayer) (msg : String),
      dumpConfigRouter stack (.error msg) =
        (none, ["dumpConfig router.json error: " ++ msg])) ∧
    (∀ stack : List RouterLayer,
      dumpConfigRouter stack (.ok ()) = (some (dumpRouters stack), [])) := by
  refine ⟨?_, ?_, ?_, fun stack msg => rfl, fun stack => rfl⟩
  · intro stack
    simp [dumpRouters]
  · intro stack i layer hl
    simp [dumpRouters, List.getElem?_map, hl, dumpRouterEntry]
  · intro hd
    refine ⟨?_, ?_, ?_, ?_⟩
    · intro s hs hne
      rw [handlerIdentifier, hs, orFalsy, if_neg hne]
    · intro h0 s hs hne
      rw [handlerIdentifier, h0, hs, orFalsy, orFalsy, if_neg hne]
    · intro h0 h1 s hs hne
      rw [handlerIdentifier, h0, h1, hs, orFalsy, orFalsy, orFalsy,
        if_neg hne]
    · intro h0 h1 h2
      rw [handlerIdentifier, h0, h1, h2]
      rfl

/-- Witness for C7 on a one-route router: the spec example route
`home`/GET/`/` produces the expected single entry. -/
theorem dumpConfig_router_spec_witness :
    (dumpRouters [demoLayer])[0]? = some
      { name := "home", methods := ["GET"], paramNames := [], path := "/",
        regexp := "/^/$/", stack := ["anonymous"] } :=
  (dumpConfig_router_spec.2.1 [demoLayer] 0 demoLayer rfl).trans (by rfl)

/-- Counting lemma for the bound emitter: over any event sequence the
once-only `server` handler runs at most once (and never again once the
emitter has fired it), while the `cookieLimitExceed` handler runs once
per `cookieLimitExceed` emission. -/
theorem emitAll_counts (evs : List String) :
    ((emitAll boundEmitter evs).2.count "onServer" ≤ 1 ∧
     (emitAll boundEmitter evs).2.count "cookieLimitExceedHandler" =
       evs.count "cookieLimitExceed") ∧
    ((emitAll firedEmitter evs).2.count "onServer" = 0 ∧
     (emitAll firedEmitter evs).2.count "cookieLimitExceedHandler" =
       evs.count "cookieLimitExceed") := by
  induction evs with
  | nil => simp [emitAll]
  | cons ev rest ih =>
    obtain ⟨⟨ihb1, ihb2⟩, ihf1, ihf2⟩ := ih
    by_cases h1 : ev = "server"
    · subst h1
      have eb : emitEvent boundEmitter "server" =
        (firedEmitter, ["onServer"]) := rfl
      have ef : emitEvent firedEmitter "server" = (firedEmitter, []) := rfl
      refine ⟨⟨?_, ?_⟩, ?_, ?_⟩ <;>
        · simp [emitAll, eb, ef, List.count_append, List.count_cons]
          omega
    · by_cases h2 : ev = "cookieLimitExceed"
      · subst h2
        have eb : emitEvent boundEmitter "cookieLimitExceed" =
          (boundEmitter, ["cookieLimitExceedHandler"]) := rfl
        have ef : emitEvent firedEmitter "cookieLimitExceed" =
          (firedEmitter, ["cookieLimitExceedHandler"]) := rfl
        refine ⟨⟨?_, ?_⟩, ?_, ?_⟩ <;>
          · simp [emitAll, eb, ef, List.count_append, List.count_cons]
            omega
      · have c1 : (("cookieLimitExceed" : String) == ev) = false := by
          rw [beq_eq_false_iff_ne]
          exact fun e => h2 e.symm
        have c2 : (("server" : String) == ev) = false := by
          rw [beq_eq_false_iff_ne]
          exact fun e => h1 e.symm
        have c3 : (ev == ("cookieLimitExceed" : String)) = false := by
          rw [beq_eq_false_iff_ne]
          exact h2
        have eb : emitEvent boundEmitter ev = (boundEmitter, []) := by
          simp [emitEvent, boundEmitter, c1, c2]
        have ef : emitEvent firedEmitter ev = (firedEmitter, []) := by
          simp [emitEvent, firedEmitter, c1]
        refine ⟨⟨?_, ?_⟩, ?_, ?_⟩ <;>
          · simp [emitAll, eb, ef, List.count_append, List.count_cons, c3]
            omega

/-- C9: the constructor binds the events synchronously, after the
loader has run and after the config diagnostics, installing a
persistent `cookieLimitExceed` handler and a once-only `server`
handler; over any sequence of emissions the `server` handler runs at
most once while the `cookieLimitExceed` handler runs on every
`cookieLimitExceed` emission. -/
theorem bindEvents_spec :
    (applicationConstructor initialConstructionState).trace =
      ["loader.load", "dumpConfig", "warnConfusedConfig", "bindEvents"] ∧
    (applicationConstructor initialConstructionState).emitter =
      boundEmitter ∧
    (∀ evs : List String,
      (emitAll (applicationConstructor initialConstructionState).emitter
        evs).2.count "onServer" ≤ 1 ∧
      (emitAll (applicationConstructor initialConstructionState).emitter
        evs).2.count "cookieLimitExceedHandler" =
        evs.count "cookieLimitExceed") := by
  refine ⟨rfl, rfl, ?_⟩
  intro evs
  have e : (applicationConstructor initialConstructionState).emitter =
    boundEmitter := rfl
  rw [e]
  exact (emitAll_counts evs).1

/-- `Object.assign` preserves the source's own values: a key present
in the source (with no duplicate keys) reads back its source value. -/
theorem assignObj_lookup_mem (t x : JObj) (q : String) (v : JVal)
    (hnd : (x.map Prod.fst).Nodup) (hx : lookupKey x q = some v) :
    lookupKey (assignObj t x) q = some v := by
  induction x generalizing t with
  | nil => simp [lookupKey] at hx
  | cons kv rest ih =>
    cases kv with
    | mk k w =>
      simp only [List.map, List.nodup_cons] at hnd
      rw [lookupKey] at hx
      rw [assignObj]
      by_cases hk : k = q
      · subst hk
        rw [if_pos rfl] at hx
        injection hx with he
        subst he
        rw [assignObj_lookup_not_mem _ rest _ hnd.1]
        exact lookupKey_setKey_self t k w
      · rw [if_neg hk] at hx
        exact ih _ hnd.2 hx

/-- C10: assigning to `locals` merges the assigned keys into the
existing bag instead of replacing it (after `locals = x` then
`locals = y`, keys of `x` absent from `y` are still readable); the
getter lazily allocates the bag on first access and every access —
also across setter calls — returns the same bag identity. -/
theorem locals_spec :
    (∀ (s : LocalsStore) (x y : JObj) (q : String) (v : JVal),
      localsWF s →
      (x.map Prod.fst).Nodup →
      lookupKey x q = some v → q ∉ y.map Prod.fst →
      localsRead (localsSet (localsSet s x) y) q = some v) ∧
    (∀ s : LocalsStore,
      localsGet ((localsGet s).2) = ((localsGet s).1, (localsGet s).2)) ∧
    (∀ (s : LocalsStore) (v : JObj),
      (localsGet (localsSet s v)).1 = (localsGet s).1) ∧
    (∀ s : LocalsStore, s.cell = none →
      localsGet s = (s.bags.length, ⟨s.bags ++ [[]], some s.bags.length⟩)) := by
  refine ⟨?_, ?_, ?_, ?_⟩
  · intro s x y q v hwf hnd hx hy
    cases hc : s.cell with
    | some i =>
      have hi : i < s.bags.length := hwf i hc
      have e1 : localsSet s x =
          ⟨s.bags.set i (assignObj ((s.bags[i]?).getD []) x), some i⟩ := by
        simp [localsSet, hc]
      have e2 : (s.bags.set i (assignObj ((s.bags[i]?).getD []) x))[i]? =
          some (assignObj ((s.bags[i]?).getD []) x) :=
        List.getElem?_set_self (by simpa using hi)
      have e3 : localsSet (localsSet s x) y =
          ⟨(s.bags.set i (assignObj ((s.bags[i]?).getD []) x)).set i
              (assignObj (assignObj ((s.bags[i]?).getD []) x) y), some i⟩ := by
        rw [e1]
        simp [localsSet, e2]
      rw [e3]
      have e4 : ((s.bags.set i (assignObj ((s.bags[i]?).getD []) x)).set i
          (assignObj (assignObj ((s.bags[i]?).getD []) x) y))[i]? =
          some (assignObj (assignObj ((s.bags[i]?).getD []) x) y) :=
        List.getElem?_set_self (by simpa using hi)
      simp only [localsRead, e4]
      rw [assignObj_lookup_not_mem _ y q hy]
      exact assignObj_lookup_mem _ x q v hnd hx
    | none =>
      have e1 : localsSet s x =
          ⟨s.bags ++ [assignObj [] x], some s.bags.length⟩ := by
        simp [localsSet, hc]
      have e2 : (s.bags ++ [assignObj [] x])[s.bags.length]? =
          some (assignObj [] x) :=
        (getElem?_append_len _ _).trans rfl
      have e3 : localsSet (localsSet s x) y =
          ⟨(s.bags ++ [assignObj [] x]).set s.bags.length
              (assignObj (assignObj [] x) y), some s.bags.length⟩ := by
        rw [e1]
        simp [localsSet, e2]
      rw [e3]
      have e4 : ((s.bags ++ [assignObj [] x]).set s.bags.length
          (assignObj (assignObj [] x) y))[s.bags.length]? =
          some (assignObj (assignObj [] x) y) :=
        List.getElem?_set_self (by simp)
      simp only [localsRead, e4]
      rw [assignObj_lookup_not_mem _ y q hy]
      exact assignObj_lookup_mem _ x q v hnd hx
  · intro s
    cases hc : s.cell with
    | some i => simp [localsGet, hc]
    | none => simp [localsGet, hc]
  · intro s v
    cases hc : s.cell with
    | some i => simp [localsGet, localsSet, hc]
    | none => simp [localsGet, localsSet, hc]
  · intro s hc
    simp [localsGet, hc]

/-- Witness for C10: setting `{a, b}` then `{b}` keeps `a` readable. -/
theorem locals_spec_witness :
    localsRead (localsSet (localsSet ⟨[], none⟩
        [("a", .str "1"), ("b", .str "2")]) [("b", .str "3")]) "a" =
      some (.str "1") :=
  locals_spec.1 ⟨[], none⟩ _ _ "a" (.str "1")
    (fun i h => Option.noConfusion h) (by decide) rfl (by decide)

end Egg
